import Mathlib

/-!
# Verification of the String Analyzer server (`src/server.js`)

Shallow embedding of the string-analysis and query-interpretation core of
the server.  Strings are modelled as `List Char` (one entry per code
point); the JavaScript regular expressions used by
`parseNaturalLanguageQuery` are modelled by bespoke scanning functions
that reproduce the left-to-right, first-match, bounded-backtracking
behaviour of the concrete patterns appearing in the source.
-/

/-- JavaScript strings, at code-point granularity. -/
abbrev JStr := List Char

/-- The whitespace class used by JS `\s`, `trim()` and the split regex,
restricted to the ASCII whitespace characters. -/
def jsIsWs (c : Char) : Bool :=
  c = ' ' || c = '\t' || c = '\n' || c = '\r' || c = '\x0b' || c = '\x0c'

/-- The JS word-character class `[A-Za-z0-9_]`, used by the `\b` anchors. -/
def isWordChar (c : Char) : Bool :=
  c.isAlpha || c.isDigit || c = '_'

/-- The character class `[a-z0-9]` of the contains-pattern. -/
def lowerAlnum (c : Char) : Bool :=
  ('a' ≤ c && c ≤ 'z') || ('0' ≤ c && c ≤ '9')

/-- `value.toLowerCase()` (ASCII model). -/
def jsToLower (s : JStr) : JStr := s.map Char.toLower

/-- `txt.includes(pat)`: `pat` occurs as a contiguous substring of `s`. -/
def includesSub : JStr → JStr → Bool
  | [], pat => pat.isPrefixOf ([] : JStr)
  | s@(_ :: cs), pat => pat.isPrefixOf s || includesSub cs pat

/-- Numeric value of a run of decimal digits (`parseInt` on a `\d+` capture). -/
def natOfDigits (ds : JStr) : Nat :=
  ds.foldl (fun n c => 10 * n + (c.toNat - '0'.toNat)) 0

/-! ## Word-bounded literal search: `/\bpat\b/` for a literal `pat` whose
first and last characters are word characters. -/

/-- Does `pat` match at the current position (whose preceding character is
`prev`, `none` at the start of the string) with `\b` satisfied on both
sides? -/
def wordBoundedHere (pat s : JStr) (prev : Option Char) : Bool :=
  pat.isPrefixOf s
  && (match prev with | none => true | some c => !isWordChar c)
  && (match (s.drop pat.length).head? with | none => true | some c => !isWordChar c)

/-- Left-to-right scan for a word-bounded occurrence of `pat`. -/
def wordBoundedSearchAux (pat : JStr) : JStr → Option Char → Bool
  | [], prev => wordBoundedHere pat [] prev
  | s@(c :: cs), prev => wordBoundedHere pat s prev || wordBoundedSearchAux pat cs (some c)

/-- `txt.match(/\bpat\b/) !== null` for a literal pattern. -/
def hasWordBounded (pat s : JStr) : Bool :=
  wordBoundedSearchAux pat s none

/-! ## `/pat (\d+)/`-style search: a literal followed by a captured digit
run (used for `longer than (\d+)` and `shorter than (\d+)`). -/

/-- Try to match literal `pat` directly followed by at least one digit at
the current position; on success capture the maximal digit run. -/
def numAfterHere (pat s : JStr) : Option Nat :=
  if pat.isPrefixOf s then
    let ds := (s.drop pat.length).takeWhile Char.isDigit
    if ds.isEmpty then none else some (natOfDigits ds)
  else none

/-- Left-to-right scan returning the first capture of `/pat(\d+)/`. -/
def scanNumAfter (pat : JStr) : JStr → Option Nat
  | [] => numAfterHere pat []
  | s@(_ :: cs) => (numAfterHere pat s).orElse (fun _ => scanNumAfter pat cs)

/-! ## The pattern `/\b(length|long) (\d+)\b/`. -/

/-- Try the length pattern at the current position.  The alternation is
ordered (`length` before `long`) exactly as in the source regex; the two
alternatives can never match at the same position, and because `\d+` is
maximal, the trailing `\b` holds iff the character after the digit run is
absent or a non-word character. -/
def lenHere (s : JStr) (prev : Option Char) : Option Nat :=
  if (match prev with | none => true | some c => !isWordChar c) then
    let afterKw : Option JStr :=
      if ("length ".data).isPrefixOf s then some (s.drop 7)
      else if ("long ".data).isPrefixOf s then some (s.drop 5)
      else none
    match afterKw with
    | none => none
    | some rest =>
      let ds := rest.takeWhile Char.isDigit
      if ds.isEmpty then none
      else
        match (rest.drop ds.length).head? with
        | none => some (natOfDigits ds)
        | some c => if isWordChar c then none else some (natOfDigits ds)
  else none

/-- Left-to-right scan for the length pattern. -/
def lenScanAux : JStr → Option Char → Option Nat
  | [], prev => lenHere [] prev
  | s@(c :: cs), prev => (lenHere s prev).orElse (fun _ => lenScanAux cs (some c))

/-- `txt.match(/\b(length|long) (\d+)\b/)`, returning the numeric capture. -/
def lenMatch (txt : JStr) : Option Nat := lenScanAux txt none

/-! ## The pattern `/(contain|containing|contains)\s+(the\s+letter\s+)?([a-z0-9])/`. -/

/-- Match `\s+` at the head: requires at least one whitespace character and
consumes the maximal run (shortening the run never helps the continuations
of this pattern, so no backtracking into `\s+` is needed). -/
def wsPlus (s : JStr) : Option JStr :=
  match s.head? with
  | some c => if jsIsWs c then some (s.dropWhile jsIsWs) else none
  | none => none

/-- Match the final capture group `([a-z0-9])` at the head. -/
def charClassHere (s : JStr) : Option Char :=
  match s.head? with
  | some c => if lowerAlnum c then some c else none
  | none => none

/-- Match `the\s+letter\s+` followed by the capture `([a-z0-9])` at the
head.  Shortening either greedy `\s+` run leaves a whitespace character
where a letter or the capture class is required, so no backtracking into
the runs is needed. -/
def theLetterGroup (s : JStr) : Option Char :=
  if ("the".data).isPrefixOf s then
    match wsPlus (s.drop 3) with
    | none => none
    | some r2 =>
      if ("letter".data).isPrefixOf r2 then
        match wsPlus (r2.drop 6) with
        | none => none
        | some r4 => charClassHere r4
      else none
  else none

/-- Match `(the\s+letter\s+)?([a-z0-9])`: the optional group is greedy, so
it is tried first and on failure the engine backtracks to matching the
character class directly. -/
def optLetterGroup (s : JStr) : Option Char :=
  (theLetterGroup s).orElse (fun _ => charClassHere s)

/-- Continuation after one of the verb alternatives has matched. -/
def afterVerb (s : JStr) : Option Char :=
  match wsPlus s with
  | none => none
  | some r => optLetterGroup r

/-- Try the contains pattern at the current position, with the source's
ordered alternation `contain | containing | contains`. -/
def containsHere (s : JStr) : Option Char :=
  (if ("contain".data).isPrefixOf s then afterVerb (s.drop 7) else none).orElse (fun _ =>
    (if ("containing".data).isPrefixOf s then afterVerb (s.drop 10) else none).orElse (fun _ =>
      if ("contains".data).isPrefixOf s then afterVerb (s.drop 8) else none))

/-- Left-to-right scan for the contains pattern, returning the captured
character. -/
def containsScanAux : JStr → Option Char
  | [] => none
  | s@(_ :: cs) => (containsHere s).orElse (fun _ => containsScanAux cs)

/-- `txt.match(/(contain|containing|contains)\s+(the\s+letter\s+)?([a-z0-9])/)`,
returning the third capture group. -/
def containsMatch (txt : JStr) : Option Char := containsScanAux txt

/-! ## The remaining patterns of `parseNaturalLanguageQuery`. -/

/-- `txt.includes('palindrom') || txt.includes('palindromic')`. -/
def palMatch (txt : JStr) : Bool :=
  includesSub txt ("palindrom".data) || includesSub txt ("palindromic".data)

/-- `txt.match(/\bsingle word\b/) || txt.match(/\b1 word\b/) || txt.match(/\bword_count=1\b/)`. -/
def wcMatch (txt : JStr) : Bool :=
  hasWordBounded ("single word".data) txt || hasWordBounded ("1 word".data) txt
    || hasWordBounded ("word_count=1".data) txt

/-- The literal of the `longer than (\d+)` pattern. -/
def longerPat : JStr := "longer than ".data

/-- The literal of the `shorter than (\d+)` pattern. -/
def shorterPat : JStr := "shorter than ".data

/-! ## FilterCriteria and the interpreter. -/

/-- FilterCriteria: the `parsed` / `filters` objects of the source.  Length
bounds are integers because `shorter than 0` produces `-1` and the
structured route accepts negative integers. -/
structure Filters where
  is_palindrome : Option Bool := none
  min_length : Option Int := none
  max_length : Option Int := none
  word_count : Option Int := none
  contains_character : Option Char := none
deriving Repr, DecidableEq

/-- `Object.keys(parsed).length === 0`: the object built by
`parseNaturalLanguageQuery` only ever receives these five keys. -/
def filtersEmpty (f : Filters) : Bool :=
  f.is_palindrome.isNone && f.min_length.isNone && f.max_length.isNone
    && f.word_count.isNone && f.contains_character.isNone

/-- The `parsed` object built by the seven sequential pattern steps of
`parseNaturalLanguageQuery` (source lines 233–253), in source order. -/
def parsedOf (txt : JStr) : Filters :=
  let p0 : Filters := {}
  let p1 := if palMatch txt then { p0 with is_palindrome := some true } else p0
  let p2 := if wcMatch txt then { p1 with word_count := some 1 } else p1
  let p3 := match scanNumAfter longerPat txt with
    | some n => { p2 with min_length := some ((n : Int) + 1) }
    | none => p2
  let p4 := match scanNumAfter shorterPat txt with
    | some n => { p3 with max_length := some ((n : Int) - 1) }
    | none => p3
  let p5 := match lenMatch txt with
    | some n => { p4 with min_length := some (n : Int), max_length := some (n : Int) }
    | none => p4
  let p6 := match containsMatch txt with
    | some c => { p5 with contains_character := some c }
    | none => p5
  if includesSub txt ("first vowel".data) then { p6 with contains_character := some 'a' } else p6

/-- The failures `parseNaturalLanguageQuery` can throw: the empty-input
guard, the no-pattern guard, and the `min > max` conflict (code 422). -/
inductive NLError where
  | emptyQuery
  | unparseable
  | conflictingFilters
deriving Repr, DecidableEq

/-- `parseNaturalLanguageQuery` (source lines 228–264). -/
def parseNaturalLanguageQuery (q : JStr) : Except NLError Filters :=
  if q.isEmpty then .error .emptyQuery
  else
    let txt := jsToLower q
    let parsed := parsedOf txt
    if filtersEmpty parsed then .error .unparseable
    else
      match parsed.min_length, parsed.max_length with
      | some m, some mx =>
        if m > mx then .error .conflictingFilters else .ok parsed
      | _, _ => .ok parsed

instance {ε α : Type} [DecidableEq ε] [DecidableEq α] : DecidableEq (Except ε α) := fun x y =>
  match x, y with
  | .error a, .error b =>
    if h : a = b then .isTrue (by rw [h]) else .isFalse (fun hh => h (Except.error.inj hh))
  | .error _, .ok _ => .isFalse (fun hh => Except.noConfusion hh)
  | .ok _, .error _ => .isFalse (fun hh => Except.noConfusion hh)
  | .ok a, .ok b =>
    if h : a = b then .isTrue (by rw [h]) else .isFalse (fun hh => h (Except.ok.inj hh))

/-! ## The Analyzer (`analyzeString`, source lines 29–59). -/

/-- `isPalindrome` (source lines 32–37): lower-case, compare with the
character-by-character reverse. -/
def isPalindromeJs (value : JStr) : Bool :=
  let cleaned := jsToLower value
  cleaned == cleaned.reverse

/-- Increment the count of `c` in an insertion-ordered association list
(`map[ch] = (map[ch] || 0) + 1` on a JS object). -/
def bumpFreq : List (Char × Nat) → Char → List (Char × Nat)
  | [], c => [(c, 1)]
  | (k, v) :: rest, c =>
    if k = c then (k, v + 1) :: rest else (k, v) :: bumpFreq rest c

/-- `charFrequencyMap` (source lines 38–42): iterate every character of the
original string, counting occurrences; keys appear in first-occurrence
order, as in a JS object. -/
def charFrequencyMap (value : JStr) : List (Char × Nat) :=
  value.foldl bumpFreq []

/-- `value.trim()` with the trailing side handled first is modelled by this
structural right-trim. -/
def trimRight : JStr → JStr
  | [] => []
  | c :: cs =>
    let r := trimRight cs
    if r.isEmpty then (if jsIsWs c then [] else [c]) else c :: r

/-- `value.trim()`: drop leading and trailing whitespace. -/
def jsTrim (s : JStr) : JStr := trimRight (s.dropWhile jsIsWs)

/-- `str.split(/\s+/)`: each maximal whitespace run is one separator; a
leading or trailing run produces an empty field, exactly as in JS.  The
accumulator holds the current field reversed; the flag records whether the
previous character was part of a separator run. -/
def jsSplitWsAux : JStr → JStr → Bool → List JStr
  | [], acc, _ => [acc.reverse]
  | c :: cs, acc, inSep =>
    if jsIsWs c then
      if inSep then jsSplitWsAux cs [] true
      else acc.reverse :: jsSplitWsAux cs [] true
    else jsSplitWsAux cs (c :: acc) false

/-- `str.split(/\s+/)`. -/
def jsSplitWs (s : JStr) : List JStr := jsSplitWsAux s [] false

/-- `value.trim() === '' ? 0 : value.trim().split(/\s+/).length`
(source line 49). -/
def wordCountJs (value : JStr) : Nat :=
  let t := jsTrim value
  if t.isEmpty then 0 else (jsSplitWs t).length

/-- Modelled from the spec: the Content Hasher contract
(`fingerprint(text) -> fixed-length hex digest`).  The implementation is
Node's `crypto.createHash('sha256')`, which is outside `src/`; the spec
requires only determinism and collision resistance, so it is modelled as an
injective encoding into a digest-like string.  None of the theorems below
relies on injectivity — determinism (being a function) suffices. -/
def sha256 (value : JStr) : JStr :=
  value.foldr (fun c acc => c :: '.' :: acc) []

/-- The `properties` object produced by `analyzeString`. -/
structure AnalyzedProps where
  length : Nat
  is_palindrome : Bool
  unique_characters : Nat
  word_count : Nat
  sha256_hash : JStr
  character_frequency_map : List (Char × Nat)
deriving Repr, DecidableEq

/-- `analyzeString` (source lines 43–59). -/
def analyzeString (value : JStr) : AnalyzedProps :=
  let freq := charFrequencyMap value
  { length := value.length
    is_palindrome := isPalindromeJs value
    unique_characters := freq.length
    word_count := wordCountJs value
    sha256_hash := sha256 value
    character_frequency_map := freq }

/-- Modelled from the spec: `word_count` is "the number of maximal
non-whitespace runs in `value`".  The flag records whether the previous
character was non-whitespace, so a run is counted exactly at each
non-whitespace character whose predecessor is whitespace or the start. -/
def countRunsAux : JStr → Bool → Nat
  | [], _ => 0
  | c :: cs, inRun =>
    if jsIsWs c then countRunsAux cs false
    else (if inRun then 0 else 1) + countRunsAux cs true

/-- Modelled from the spec: the number of maximal non-whitespace runs. -/
def countRuns (s : JStr) : Nat := countRunsAux s false

/-! ## Records and the store operations (`POST /strings`,
`GET /strings/:value`, source lines 70–93 and 198–210). -/

/-- A persisted StringRecord. -/
structure Record where
  id : JStr
  value : JStr
  properties : AnalyzedProps
  created_at : Nat
deriving Repr, DecidableEq

/-- The failure of the create operation. -/
inductive CreateErr where
  | duplicate
deriving Repr, DecidableEq

/-- `POST /strings` (source lines 70–93): analyze, use the hash as id,
reject when a record with the same id exists, otherwise append and persist.
`now` stands for `new Date()`. -/
def createString (db : List Record) (value : JStr) (now : Nat) :
    Except CreateErr (Record × List Record) :=
  let props := analyzeString value
  let id := props.sha256_hash
  match db.find? (fun s => s.id == id) with
  | some _ => .error .duplicate
  | none =>
    let record : Record := ⟨id, value, props, now⟩
    .ok (record, db ++ [record])

/-- `GET /strings/:value` (source lines 198–210): hash the raw value, find
by id. -/
def lookupString (db : List Record) (rawValue : JStr) : Option Record :=
  db.find? (fun s => s.id == sha256 rawValue)

/-! ## The Filter Predicate Engine (source lines 112–120, duplicated at
lines 177–185). -/

/-- One record against one criteria set: conjunction of the five optional
checks; `contains_character` is checked against the raw `value`. -/
def filterMatches (p : AnalyzedProps) (value : JStr) (f : Filters) : Bool :=
  (match f.is_palindrome with | some b => p.is_palindrome == b | none => true)
  && (match f.min_length with | some m => decide ((p.length : Int) ≥ m) | none => true)
  && (match f.max_length with | some mx => decide ((p.length : Int) ≤ mx) | none => true)
  && (match f.word_count with | some w => decide ((p.word_count : Int) = w) | none => true)
  && (match f.contains_character with | some c => value.contains c | none => true)

/-! ## Structured criteria parsing (`GET /strings`, source lines 137–196). -/

/-- `parseInt(s, 10)`: skip leading whitespace, optional sign, then the
maximal run of decimal digits; `NaN` (here `none`) when no digit is
found. -/
def parseIntJS (s : JStr) : Option Int :=
  let t := s.dropWhile jsIsWs
  match t with
  | '-' :: r =>
    let ds := r.takeWhile Char.isDigit
    if ds.isEmpty then none else some (-(natOfDigits ds : Int))
  | '+' :: r =>
    let ds := r.takeWhile Char.isDigit
    if ds.isEmpty then none else some ((natOfDigits ds : Int))
  | _ =>
    let ds := t.takeWhile Char.isDigit
    if ds.isEmpty then none else some ((natOfDigits ds : Int))

/-- The raw query parameters of `GET /strings` (absent or string-valued). -/
structure StrQuery where
  is_palindrome : Option JStr := none
  min_length : Option JStr := none
  max_length : Option JStr := none
  word_count : Option JStr := none
  contains_character : Option JStr := none
deriving Repr, DecidableEq

/-- Field checks after the first four have passed. -/
def parseAfterWc (q : StrQuery) (f : Filters) : Except String Filters :=
  match q.contains_character with
  | none => .ok f
  | some cc =>
    if cc.length = 1 then
      .ok { f with contains_character := cc.head? }
    else .error "contains_character must be a single character string"

/-- Field checks after `is_palindrome`, `min_length` and `max_length`. -/
def parseAfterMax (q : StrQuery) (f : Filters) : Except String Filters :=
  match q.word_count with
  | none => parseAfterWc q f
  | some s =>
    match parseIntJS s with
    | none => .error "word_count must be integer"
    | some i => parseAfterWc q { f with word_count := some i }

/-- Field checks after `is_palindrome` and `min_length`. -/
def parseAfterMin (q : StrQuery) (f : Filters) : Except String Filters :=
  match q.max_length with
  | none => parseAfterMax q f
  | some s =>
    match parseIntJS s with
    | none => .error "max_length must be integer"
    | some i => parseAfterMax q { f with max_length := some i }

/-- Field checks after `is_palindrome`. -/
def parseAfterPal (q : StrQuery) (f : Filters) : Except String Filters :=
  match q.min_length with
  | none => parseAfterMin q f
  | some s =>
    match parseIntJS s with
    | none => .error "min_length must be integer"
    | some i => parseAfterMin q { f with min_length := some i }

/-- The sequential field validation of `GET /strings` (source lines
147–172): each present field is independently type-checked in source
order, the first malformed one aborting with its own error message. -/
def parseQueryFilters (q : StrQuery) : Except String Filters :=
  match q.is_palindrome with
  | none => parseAfterPal q {}
  | some p =>
    let pl := jsToLower p
    if pl == ("true".data) || pl == ("false".data) then
      parseAfterPal q { is_palindrome := some (pl == ("true".data)) }
    else .error "is_palindrome must be true or false"

/-- The whole `GET /strings` handler on a loaded collection: parse the
criteria, then filter.  There is no further check between parsing and
filtering. -/
def listStrings (q : StrQuery) (db : List Record) :
    Except String (List Record × Filters) :=
  match parseQueryFilters q with
  | .error e => .error e
  | .ok f => .ok (db.filter (fun r => filterMatches r.properties r.value f), f)

/-- The `GET /strings/filter-by-natural-language` handler on a loaded
collection: interpret the phrase, then filter with the same predicate. -/
def listByNaturalLanguage (q : JStr) (db : List Record) :
    Except NLError (List Record × Filters) :=
  match parseNaturalLanguageQuery q with
  | .error e => .error e
  | .ok f => .ok (db.filter (fun r => filterMatches r.properties r.value f), f)

example : parseNaturalLanguageQuery ("all single word palindromic strings".data) =
    .ok { is_palindrome := some true, word_count := some 1 } := by decide

example : parseNaturalLanguageQuery ("strings longer than 10 characters".data) =
    .ok { min_length := some 11 } := by decide

example : parseNaturalLanguageQuery ("strings shorter than 5 characters".data) =
    .ok { max_length := some 4 } := by decide

example : parseNaturalLanguageQuery ("length 10".data) =
    .ok { min_length := some 10, max_length := some 10 } := by decide

example : parseNaturalLanguageQuery ("no recognizable tokens here".data) =
    .error .unparseable := by decide

example : parseNaturalLanguageQuery ("longer than 20 shorter than 5".data) =
    .error .conflictingFilters := by decide

example : analyzeString ("racecar".data) =
    { length := 7, is_palindrome := true, unique_characters := 4, word_count := 1,
      sha256_hash := sha256 ("racecar".data),
      character_frequency_map := [('r', 2), ('a', 2), ('c', 2), ('e', 1)] } := by decide

example : parseNaturalLanguageQuery ("word_count=1".data) =
    .ok { word_count := some 1 } := by decide

example : parseNaturalLanguageQuery ("containing the letter Z".data) =
    .ok { contains_character := some 'z' } := by decide

example : parseNaturalLanguageQuery ("palindromic strings that contain the first vowel".data) =
    .ok { is_palindrome := some true, contains_character := some 'a' } := by decide

example : containsMatch (jsToLower ("palindromic strings that contain the first vowel".data)) =
    some 't' := by decide

example : parseQueryFilters { min_length := some ("12abc".data) } =
    .ok { min_length := some 12 } := by decide

example : parseQueryFilters { min_length := some ("abc".data) } =
    .error "min_length must be integer" := by decide

example : listStrings { min_length := some ("5".data), max_length := some ("3".data) }
      [⟨sha256 ("abc".data), "abc".data, analyzeString ("abc".data), 0⟩] =
    .ok ([], { min_length := some 5, max_length := some 3 }) := by decide

example : wordCountJs ("  hello   world  ".data) = 2 := by decide
example : countRuns ("  hello   world  ".data) = 2 := by decide
example : wordCountJs ("   ".data) = 0 := by decide

example : createString [] ("abc".data) 0 =
    .ok (⟨sha256 ("abc".data), "abc".data, analyzeString ("abc".data), 0⟩,
      [⟨sha256 ("abc".data), "abc".data, analyzeString ("abc".data), 0⟩]) := by decide

/-! ## Field-wise characterization of the composed criteria. -/

/-- The sequential object building of `parseNaturalLanguageQuery` computed
field by field: each field is owned by its pattern(s); the length pattern
overwrites the longer/shorter captures and the first-vowel literal
overwrites the contains capture, in source order. -/
theorem parsedOf_eq (txt : JStr) : parsedOf txt =
    { is_palindrome := if palMatch txt then some true else none
      word_count := if wcMatch txt then some 1 else none
      min_length :=
        match lenMatch txt, scanNumAfter longerPat txt with
        | some n, _ => some (n : Int)
        | none, some m => some ((m : Int) + 1)
        | none, none => none
      max_length :=
        match lenMatch txt, scanNumAfter shorterPat txt with
        | some n, _ => some (n : Int)
        | none, some m => some ((m : Int) - 1)
        | none, none => none
      contains_character :=
        if includesSub txt ("first vowel".data) then some 'a' else containsMatch txt } := by
  unfold parsedOf
  cases h1 : palMatch txt <;> cases h2 : wcMatch txt <;>
    cases h3 : lenMatch txt <;> cases h4 : scanNumAfter longerPat txt <;>
    cases h5 : scanNumAfter shorterPat txt <;> cases h6 : containsMatch txt <;>
    cases h7 : includesSub txt ("first vowel".data) <;>
    simp only [] <;> rfl

/-- The composed criteria are empty exactly when every pattern of the
source fails. -/
theorem filtersEmpty_parsedOf (txt : JStr) :
    filtersEmpty (parsedOf txt) = true ↔
      (palMatch txt = false ∧ wcMatch txt = false ∧
       scanNumAfter longerPat txt = none ∧ scanNumAfter shorterPat txt = none ∧
       lenMatch txt = none ∧ containsMatch txt = none ∧
       includesSub txt ("first vowel".data) = false) := by
  rw [parsedOf_eq, filtersEmpty]
  cases h1 : palMatch txt <;> cases h2 : wcMatch txt <;>
    cases h3 : lenMatch txt <;> cases h4 : scanNumAfter longerPat txt <;>
    cases h5 : scanNumAfter shorterPat txt <;> cases h6 : containsMatch txt <;>
    cases h7 : includesSub txt ("first vowel".data) <;> simp

/-- A criteria set with a minimum-length bound is not empty. -/
theorem filtersEmpty_false_of_min {f : Filters} {m : Int}
    (h : f.min_length = some m) : filtersEmpty f = false := by
  cases f
  simp only [filtersEmpty]
  simp_all

/-- The hash stored by the Analyzer is the fingerprint of the value. -/
theorem analyzeString_hash (v : JStr) : (analyzeString v).sha256_hash = sha256 v := rfl

/-- The character-class capture satisfies its class. -/
theorem charClassHere_class {s : JStr} {c : Char} (h : charClassHere s = some c) :
    lowerAlnum c = true := by
  unfold charClassHere at h
  split at h
  · split at h
    · cases h; assumption
    · exact absurd h (by simp)
  · exact absurd h (by simp)

/-- The optional-group branch only captures characters of the class. -/
theorem theLetterGroup_class {s : JStr} {c : Char} (h : theLetterGroup s = some c) :
    lowerAlnum c = true := by
  unfold theLetterGroup at h
  split at h
  · split at h
    · exact absurd h (by simp)
    · split at h
      · split at h
        · exact absurd h (by simp)
        · exact charClassHere_class h
      · exact absurd h (by simp)
  · exact absurd h (by simp)

/-- Whatever `optLetterGroup` captures satisfies `[a-z0-9]`. -/
theorem optLetterGroup_class {s : JStr} {c : Char} (h : optLetterGroup s = some c) :
    lowerAlnum c = true := by
  unfold optLetterGroup at h
  cases hg : theLetterGroup s with
  | some e =>
    rw [hg] at h
    simp only [Option.orElse] at h
    cases h
    exact theLetterGroup_class hg
  | none =>
    rw [hg] at h
    simp only [Option.orElse] at h
    exact charClassHere_class h

/-- Whatever the contains pattern captures at one position satisfies its
class. -/
theorem containsHere_class {s : JStr} {c : Char} (h : containsHere s = some c) :
    lowerAlnum c = true := by
  have hav : ∀ (t : JStr), afterVerb t = some c → lowerAlnum c = true := by
    intro t ht
    unfold afterVerb at ht
    cases hw : wsPlus t with
    | none => rw [hw] at ht; exact absurd ht (by simp)
    | some r => rw [hw] at ht; exact optLetterGroup_class ht
  unfold containsHere at h
  cases h1 : (if ("contain".data).isPrefixOf s then afterVerb (s.drop 7) else none) with
  | some e =>
    rw [h1] at h
    simp only [Option.orElse] at h
    cases h
    by_cases hp : ("contain".data).isPrefixOf s
    · rw [if_pos hp] at h1; exact hav _ h1
    · rw [if_neg hp] at h1; exact absurd h1 (by simp)
  | none =>
    rw [h1] at h
    simp only [Option.orElse] at h
    cases h2 : (if ("containing".data).isPrefixOf s then afterVerb (s.drop 10) else none) with
    | some e =>
      rw [h2] at h
      simp only [Option.orElse] at h
      cases h
      by_cases hp : ("containing".data).isPrefixOf s
      · rw [if_pos hp] at h2; exact hav _ h2
      · rw [if_neg hp] at h2; exact absurd h2 (by simp)
    | none =>
      rw [h2] at h
      simp only [Option.orElse] at h
      by_cases hp : ("contains".data).isPrefixOf s
      · rw [if_pos hp] at h; exact hav _ h
      · rw [if_neg hp] at h; exact absurd h (by simp)

/-- Whatever the contains pattern captures anywhere satisfies its class. -/
theorem containsMatch_class {txt : JStr} {c : Char} (h : containsMatch txt = some c) :
    lowerAlnum c = true := by
  induction txt with
  | nil => exact absurd h (by simp [containsMatch, containsScanAux])
  | cons d cs ih =>
    rw [containsMatch, containsScanAux] at h
    cases hh : containsHere (d :: cs) with
    | some e =>
      rw [hh] at h
      simp only [Option.orElse] at h
      cases h
      exact containsHere_class hh
    | none =>
      rw [hh] at h
      simp only [Option.orElse] at h
      exact ih h

/-- C5: `analyze("racecar")` returns length 7, is_palindrome true,
unique_characters 4, word_count 1, and character frequency
`{r:2, a:2, c:2, e:1}`. -/
theorem c5_analyze_racecar :
    (analyzeString ("racecar".data)).length = 7 ∧
    (analyzeString ("racecar".data)).is_palindrome = true ∧
    (analyzeString ("racecar".data)).unique_characters = 4 ∧
    (analyzeString ("racecar".data)).word_count = 1 ∧
    (analyzeString ("racecar".data)).character_frequency_map =
      [('r', 2), ('a', 2), ('c', 2), ('e', 1)] := by decide

/-- C3: a `longer than N` match contributes `min_length = N + 1`, a
`shorter than N` match contributes `max_length = N - 1`, and a
`length N`/`long N` match sets both bounds to exactly `N` (the first two
stated on phrases where the length pattern, which would overwrite them,
does not match). -/
theorem c3_length_patterns (q1 q2 q3 : JStr) (n1 n2 n3 : Nat) :
    (scanNumAfter longerPat (jsToLower q1) = some n1 → lenMatch (jsToLower q1) = none →
      (parsedOf (jsToLower q1)).min_length = some ((n1 : Int) + 1)) ∧
    (scanNumAfter shorterPat (jsToLower q2) = some n2 → lenMatch (jsToLower q2) = none →
      (parsedOf (jsToLower q2)).max_length = some ((n2 : Int) - 1)) ∧
    (lenMatch (jsToLower q3) = some n3 →
      (parsedOf (jsToLower q3)).min_length = some (n3 : Int) ∧
      (parsedOf (jsToLower q3)).max_length = some (n3 : Int)) := by
  refine ⟨fun h1 h2 => ?_, fun h1 h2 => ?_, fun h1 => ?_⟩
  · rw [parsedOf_eq]; simp [h1, h2]
  · rw [parsedOf_eq]; simp [h1, h2]
  · rw [parsedOf_eq]; simp [h1]

/-- C3 witness: concrete phrases for each of the three patterns. -/
theorem c3_witness :
    (parsedOf (jsToLower ("longer than 10".data))).min_length = some ((10 : Int) + 1) ∧
    (parsedOf (jsToLower ("shorter than 5".data))).max_length = some ((5 : Int) - 1) ∧
    (parsedOf (jsToLower ("length 10".data))).min_length = some ((10 : Nat) : Int) ∧
    (parsedOf (jsToLower ("length 10".data))).max_length = some ((10 : Nat) : Int) :=
  ⟨(c3_length_patterns ("longer than 10".data) ("shorter than 5".data) ("length 10".data)
      10 5 10).1 (by decide) (by decide),
   (c3_length_patterns ("longer than 10".data) ("shorter than 5".data) ("length 10".data)
      10 5 10).2.1 (by decide) (by decide),
   ((c3_length_patterns ("longer than 10".data) ("shorter than 5".data) ("length 10".data)
      10 5 10).2.2 (by decide)).1,
   ((c3_length_patterns ("longer than 10".data) ("shorter than 5".data) ("length 10".data)
      10 5 10).2.2 (by decide)).2⟩

/-- C4: `interpret("length 10")` yields exactly
`{min_length: 10, max_length: 10}`; combined with `longer than 20` in one
phrase the interpreter keeps the value written by the last-applied pattern
(the length pattern overwrites, last-match-wins), never averaging,
conjoining or rejecting as ambiguous. -/
theorem c4_overwrite :
    (parseNaturalLanguageQuery ("length 10".data) =
      .ok { min_length := some 10, max_length := some 10 }) ∧
    (parseNaturalLanguageQuery ("length 10 and longer than 20".data) =
      .ok { min_length := some 10, max_length := some 10 }) ∧
    (∀ (q : JStr) (n : Nat), lenMatch (jsToLower q) = some n →
      (parsedOf (jsToLower q)).min_length = some (n : Int) ∧
      (parsedOf (jsToLower q)).max_length = some (n : Int)) := by
  refine ⟨by decide, by decide, fun q n h => ?_⟩
  rw [parsedOf_eq]
  simp [h]

/-- C4 witness: the overwrite clause at a phrase where both patterns
match. -/
theorem c4_witness :
    (parsedOf (jsToLower ("length 10 and longer than 20".data))).min_length =
      some ((10 : Nat) : Int) ∧
    (parsedOf (jsToLower ("length 10 and longer than 20".data))).max_length =
      some ((10 : Nat) : Int) :=
  c4_overwrite.2.2 ("length 10 and longer than 20".data) 10 (by decide)

/-- C8: any phrase containing `first vowel` ends with
`contains_character = 'a'` (the fixed literal), even when the contains
pattern also matched elsewhere in the phrase; on the example phrase the
contains pattern captures `'t'` and is then overwritten. -/
theorem c8_first_vowel :
    (∀ q : JStr, includesSub (jsToLower q) ("first vowel".data) = true →
      (parsedOf (jsToLower q)).contains_character = some 'a') ∧
    (containsMatch (jsToLower ("palindromic strings that contain the first vowel".data)) =
      some 't') ∧
    (parseNaturalLanguageQuery ("palindromic strings that contain the first vowel".data) =
      .ok { is_palindrome := some true, contains_character := some 'a' }) := by
  refine ⟨fun q h => ?_, by decide, by decide⟩
  rw [parsedOf_eq]
  simp [h]

/-- C8 witness: the universally quantified clause at a concrete phrase. -/
theorem c8_witness :
    (parsedOf (jsToLower ("first vowel".data))).contains_character = some 'a' :=
  c8_first_vowel.1 ("first vowel".data) (by decide)

/-- `parseNaturalLanguageQuery` on a non-empty phrase, unfolded past the
empty-input guard. -/
theorem parseNLQ_cons (a : Char) (as : JStr) :
    parseNaturalLanguageQuery (a :: as) =
      if filtersEmpty (parsedOf (jsToLower (a :: as))) then .error .unparseable
      else
        match (parsedOf (jsToLower (a :: as))).min_length,
            (parsedOf (jsToLower (a :: as))).max_length with
        | some m, some mx =>
          if m > mx then .error .conflictingFilters else .ok (parsedOf (jsToLower (a :: as)))
        | _, _ => .ok (parsedOf (jsToLower (a :: as))) := rfl

/-- The word-count pattern of the source fails iff its three word-bounded
alternatives all fail. -/
theorem wcMatch_false_iff (txt : JStr) :
    wcMatch txt = false ↔
      (hasWordBounded ("single word".data) txt = false ∧
       hasWordBounded ("1 word".data) txt = false ∧
       hasWordBounded ("word_count=1".data) txt = false) := by
  unfold wcMatch
  cases h1 : hasWordBounded ("single word".data) txt <;>
    cases h2 : hasWordBounded ("1 word".data) txt <;>
    cases h3 : hasWordBounded ("word_count=1".data) txt <;> simp

/-- C2 counterexample: the phrase `word_count=1` matches none of the seven
patterns the claim lists (in particular neither `single word` nor
`1 word`), yet the interpreter succeeds with `{word_count: 1}` instead of
failing with Unparseable, because the source's second pattern also accepts
the token `word_count=1`. -/
theorem c2_counterexample :
    parseNaturalLanguageQuery ("word_count=1".data) = .ok { word_count := some 1 } ∧
    palMatch (jsToLower ("word_count=1".data)) = false ∧
    hasWordBounded ("single word".data) (jsToLower ("word_count=1".data)) = false ∧
    hasWordBounded ("1 word".data) (jsToLower ("word_count=1".data)) = false ∧
    scanNumAfter longerPat (jsToLower ("word_count=1".data)) = none ∧
    scanNumAfter shorterPat (jsToLower ("word_count=1".data)) = none ∧
    lenMatch (jsToLower ("word_count=1".data)) = none ∧
    containsMatch (jsToLower ("word_count=1".data)) = none ∧
    includesSub (jsToLower ("word_count=1".data)) ("first vowel".data) = false := by
  decide

/-- C2 amended: for every non-empty phrase, interpret fails with
Unparseable iff none of the recognized patterns matches anywhere in the
phrase, where pattern 2 accepts the word-bounded tokens `single word`,
`1 word` and also `word_count=1` (the alternative the claim's list
omits). -/
theorem c2_unparseable_iff (q : JStr) (hq : q ≠ []) :
    parseNaturalLanguageQuery q = .error .unparseable ↔
      (palMatch (jsToLower q) = false ∧
       hasWordBounded ("single word".data) (jsToLower q) = false ∧
       hasWordBounded ("1 word".data) (jsToLower q) = false ∧
       hasWordBounded ("word_count=1".data) (jsToLower q) = false ∧
       scanNumAfter longerPat (jsToLower q) = none ∧
       scanNumAfter shorterPat (jsToLower q) = none ∧
       lenMatch (jsToLower q) = none ∧
       containsMatch (jsToLower q) = none ∧
       includesSub (jsToLower q) ("first vowel".data) = false) := by
  cases q with
  | nil => exact absurd rfl hq
  | cons a as =>
    rw [parseNLQ_cons]
    constructor
    · intro h
      by_cases he : filtersEmpty (parsedOf (jsToLower (a :: as))) = true
      · have h7 := (filtersEmpty_parsedOf _).mp he
        have hw := (wcMatch_false_iff _).mp h7.2.1
        exact ⟨h7.1, hw.1, hw.2.1, hw.2.2, h7.2.2.1, h7.2.2.2.1, h7.2.2.2.2.1,
          h7.2.2.2.2.2.1, h7.2.2.2.2.2.2⟩
      · exfalso
        rw [if_neg he] at h
        split at h
        · split at h <;> simp_all
        · simp_all
    · intro hall
      have he : filtersEmpty (parsedOf (jsToLower (a :: as))) = true :=
        (filtersEmpty_parsedOf _).mpr
          ⟨hall.1, (wcMatch_false_iff _).mpr ⟨hall.2.1, hall.2.2.1, hall.2.2.2.1⟩,
           hall.2.2.2.2.1, hall.2.2.2.2.2.1, hall.2.2.2.2.2.2.1,
           hall.2.2.2.2.2.2.2.1, hall.2.2.2.2.2.2.2.2⟩
      rw [if_pos he]

/-- C2 witness: the amended equivalence applied at a concrete phrase with
no recognized token. -/
theorem c2_witness :
    parseNaturalLanguageQuery ("no recognizable tokens here".data) = .error .unparseable :=
  (c2_unparseable_iff ("no recognizable tokens here".data) (by decide)).mpr (by decide)

/-- A sample stored record, the analysis of `"abc"`. -/
def abcRecord : Record :=
  ⟨sha256 ("abc".data), "abc".data, analyzeString ("abc".data), 0⟩

/-- C1 counterexample: a structured-criteria list request with
`min_length = 5 > 3 = max_length` does not fail with any error — the
handler silently applies the conflicting criteria and returns an empty
match list with the criteria echoed back. -/
theorem c1_counterexample :
    listStrings { min_length := some ("5".data), max_length := some ("3".data) }
        [abcRecord] =
      .ok ([], { min_length := some 5, max_length := some 3 }) ∧
    (5 : Int) > 3 := by decide

/-- C1 amended: the `min_length > max_length` violation is a distinct
ConflictingFilters error on the natural-language path only; the
structured-criteria path performs no conflict check — criteria whose
fields type-check are applied unchanged, and a conflicting pair then
matches no record (a silent empty result, not an error). -/
theorem c1_conflict_paths :
    (∀ (q : JStr) (m mx : Int),
      (parsedOf (jsToLower q)).min_length = some m →
      (parsedOf (jsToLower q)).max_length = some mx → m > mx →
      parseNaturalLanguageQuery q = .error .conflictingFilters) ∧
    (∀ (qp : StrQuery) (f : Filters) (db : List Record),
      parseQueryFilters qp = .ok f →
      listStrings qp db =
        .ok (db.filter (fun r => filterMatches r.properties r.value f), f)) ∧
    (∀ (p : AnalyzedProps) (v : JStr) (f : Filters) (m mx : Int),
      f.min_length = some m → f.max_length = some mx → m > mx →
      filterMatches p v f = false) := by
  refine ⟨?_, ?_, ?_⟩
  · intro q m mx hm hx hgt
    cases q with
    | nil =>
      have hnone : (parsedOf (jsToLower ([] : JStr))).min_length = none := by decide
      rw [hnone] at hm
      exact absurd hm (by simp)
    | cons a as =>
      rw [parseNLQ_cons]
      rw [filtersEmpty_false_of_min hm]
      rw [if_neg (by simp)]
      rw [hm, hx]
      simp only []
      rw [if_pos hgt]
  · intro qp f db h
    unfold listStrings
    rw [h]
  · intro p v f m mx hm hx hgt
    unfold filterMatches
    rw [hm, hx]
    by_cases hge : (p.length : Int) ≥ m
    · have hle : ¬ ((p.length : Int) ≤ mx) := by omega
      simp [hle]
    · simp [hge]

/-- C1 witness: both paths at concrete conflicting inputs. -/
theorem c1_witness :
    parseNaturalLanguageQuery ("longer than 20 shorter than 5".data) =
      .error .conflictingFilters ∧
    listStrings { min_length := some ("5".data), max_length := some ("3".data) } [] =
      .ok ([], { min_length := some 5, max_length := some 3 }) ∧
    filterMatches (analyzeString ("abc".data)) ("abc".data)
      { min_length := some 5, max_length := some 3 } = false :=
  ⟨c1_conflict_paths.1 ("longer than 20 shorter than 5".data) 21 4
      (by decide) (by decide) (by decide),
   c1_conflict_paths.2.1 { min_length := some ("5".data), max_length := some ("3".data) }
      { min_length := some 5, max_length := some 3 } [] (by decide),
   c1_conflict_paths.2.2 (analyzeString ("abc".data)) ("abc".data)
      { min_length := some 5, max_length := some 3 } 5 3 rfl rfl (by decide)⟩

/-- C6 counterexample: `min_length = "12abc"` is not an integer token, yet
the structured route accepts it as `12` (parseInt prefix parsing) instead
of rejecting it with InvalidCriteria — a malformed field partially
accepted. -/
theorem c6_counterexample :
    parseQueryFilters { min_length := some ("12abc".data) } =
      .ok { min_length := some 12 } := by decide

/-- C6 amended: every present field is independently type-checked and a
field failing its check aborts with an error naming that field; however
the integer fields use parseInt prefix semantics, so only a token with no
leading integer is rejected, while a token with an integer prefix (such as
`12abc`) is accepted with the prefix value. -/
theorem c6_field_checks :
    (∀ p : JStr, ((jsToLower p == ("true".data)) || (jsToLower p == ("false".data))) = false →
      parseQueryFilters { is_palindrome := some p } =
        .error "is_palindrome must be true or false") ∧
    (∀ p : JStr, parseIntJS p = none →
      parseQueryFilters { min_length := some p } = .error "min_length must be integer") ∧
    (∀ p : JStr, parseIntJS p = none →
      parseQueryFilters { max_length := some p } = .error "max_length must be integer") ∧
    (∀ p : JStr, parseIntJS p = none →
      parseQueryFilters { word_count := some p } = .error "word_count must be integer") ∧
    (∀ p : JStr, p.length ≠ 1 →
      parseQueryFilters { contains_character := some p } =
        .error "contains_character must be a single character string") ∧
    (∀ (p : JStr) (i : Int), parseIntJS p = some i →
      parseQueryFilters { min_length := some p } = .ok { min_length := some i }) := by
  refine ⟨fun p h => ?_, fun p h => ?_, fun p h => ?_, fun p h => ?_, fun p h => ?_,
    fun p i h => ?_⟩ <;>
    simp [parseQueryFilters, parseAfterPal, parseAfterMin, parseAfterMax, parseAfterWc, h]

/-- C6 witness: each check at a concrete malformed (or prefix-accepted)
token. -/
theorem c6_witness :
    parseQueryFilters { is_palindrome := some ("yes".data) } =
      .error "is_palindrome must be true or false" ∧
    parseQueryFilters { min_length := some ("abc".data) } =
      .error "min_length must be integer" ∧
    parseQueryFilters { max_length := some ("abc".data) } =
      .error "max_length must be integer" ∧
    parseQueryFilters { word_count := some ("abc".data) } =
      .error "word_count must be integer" ∧
    parseQueryFilters { contains_character := some ("ab".data) } =
      .error "contains_character must be a single character string" ∧
    parseQueryFilters { min_length := some ("12abc".data) } =
      .ok { min_length := some 12 } :=
  ⟨c6_field_checks.1 ("yes".data) (by decide),
   c6_field_checks.2.1 ("abc".data) (by decide),
   c6_field_checks.2.2.1 ("abc".data) (by decide),
   c6_field_checks.2.2.2.1 ("abc".data) (by decide),
   c6_field_checks.2.2.2.2.1 ("ab".data) (by decide),
   c6_field_checks.2.2.2.2.2 ("12abc".data) 12 (by decide)⟩

/-- `find?` skips a block in which nothing satisfies the predicate. -/
theorem find?_append_none {α : Type} (p : α → Bool) (l1 l2 : List α)
    (h : l1.find? p = none) : (l1 ++ l2).find? p = l2.find? p := by
  induction l1 with
  | nil => rfl
  | cons a as ih =>
    cases hpa : p a with
    | true =>
      rw [List.find?_cons_of_pos _ hpa] at h
      exact absurd h (by simp)
    | false =>
      rw [List.find?_cons_of_neg _ (by simp [hpa])] at h
      rw [List.cons_append, List.find?_cons_of_neg _ (by simp [hpa])]
      exact ih h

/-- C7: a successful create followed by a lookup with the same raw value
returns the very record just created (identical properties), and creating
the same value again fails with Duplicate. -/
theorem c7_roundtrip (db : List Record) (v : JStr) (now : Nat) (rec : Record)
    (db' : List Record) (h : createString db v now = .ok (rec, db')) :
    lookupString db' v = some rec ∧ rec.properties = analyzeString v ∧
    ∀ now2 : Nat, createString db' v now2 = .error .duplicate := by
  simp only [createString] at h
  cases hf : db.find? (fun s => s.id == (analyzeString v).sha256_hash) with
  | some r =>
    rw [hf] at h
    exact absurd h (by simp)
  | none =>
    rw [hf] at h
    simp only [Except.ok.injEq, Prod.mk.injEq] at h
    obtain ⟨hrec, hdb⟩ := h
    subst hrec
    subst hdb
    have hf' : db.find? (fun s => s.id == sha256 v) = none := hf
    have hlook :
        (db ++ [(⟨(analyzeString v).sha256_hash, v, analyzeString v, now⟩ : Record)]).find?
          (fun s => s.id == sha256 v) =
        some (⟨(analyzeString v).sha256_hash, v, analyzeString v, now⟩ : Record) := by
      rw [find?_append_none _ _ _ hf']
      rw [List.find?_cons_of_pos _ (by simp [analyzeString_hash])]
    refine ⟨hlook, rfl, fun now2 => ?_⟩
    simp only [createString]
    rw [show (db ++ [(⟨(analyzeString v).sha256_hash, v, analyzeString v, now⟩ : Record)]).find?
        (fun s => s.id == (analyzeString v).sha256_hash) =
        some (⟨(analyzeString v).sha256_hash, v, analyzeString v, now⟩ : Record) from hlook]

/-- C7 witness: the round trip at the concrete value `"abc"` starting from
an empty collection. -/
theorem c7_witness :
    createString [] ("abc".data) 0 = .ok (abcRecord, [abcRecord]) ∧
    lookupString [abcRecord] ("abc".data) = some abcRecord ∧
    createString [abcRecord] ("abc".data) 1 = .error .duplicate := by
  have h : createString [] ("abc".data) 0 = .ok (abcRecord, [abcRecord]) := by decide
  exact ⟨h, (c7_roundtrip [] ("abc".data) 0 abcRecord [abcRecord] h).1,
    (c7_roundtrip [] ("abc".data) 0 abcRecord [abcRecord] h).2.2 1⟩

/-- C10: the interpreter lowercases the phrase before matching, so any
capture of the contains pattern is a lowercase letter or digit; a phrase
naming an uppercase letter yields the lowercase character, and the filter
engine then matches it case-sensitively against the raw stored value
(so `'z'` does not match `"Zebra"` but matches `"zebra"`). -/
theorem c10_lowercase_contains :
    (∀ (q : JStr) (c : Char), containsMatch (jsToLower q) = some c → lowerAlnum c = true) ∧
    (parseNaturalLanguageQuery ("containing the letter Z".data) =
      .ok { contains_character := some 'z' }) ∧
    (filterMatches (analyzeString ("Zebra".data)) ("Zebra".data)
      { contains_character := some 'z' } = false) ∧
    (filterMatches (analyzeString ("zebra".data)) ("zebra".data)
      { contains_character := some 'z' } = true) := by
  exact ⟨fun q c h => containsMatch_class h, by decide, by decide, by decide⟩

/-- C10 witness: the class clause at a concrete phrase with an uppercase
letter. -/
theorem c10_witness : lowerAlnum 'z' = true :=
  c10_lowercase_contains.1 ("containing the letter Z".data) 'z' (by decide)

/-! ## Word-count refinement: the trim-and-split computation of the source
equals the specification's count of maximal non-whitespace runs. -/

/-- A string whose right-trim vanishes is all whitespace, so it contains
no run at all. -/
theorem countRunsAux_of_trimRight_nil {u : JStr} (h : trimRight u = []) :
    ∀ b : Bool, countRunsAux u b = 0 := by
  induction u with
  | nil => intro b; rfl
  | cons c cs ih =>
    intro b
    simp only [trimRight] at h
    cases htr : trimRight cs with
    | cons r rs =>
      rw [htr] at h
      simp at h
    | nil =>
      rw [htr] at h
      simp only [List.isEmpty_nil, if_true] at h
      by_cases hc : jsIsWs c = true
      · simp only [countRunsAux, hc, if_true]
        exact ih htr false
      · rw [if_neg hc] at h
        simp at h

/-- Right-trimming does not change the run count. -/
theorem countRunsAux_trimRight (u : JStr) :
    ∀ b : Bool, countRunsAux (trimRight u) b = countRunsAux u b := by
  induction u with
  | nil => intro b; rfl
  | cons c cs ih =>
    intro b
    simp only [trimRight]
    by_cases hemp : (trimRight cs).isEmpty = true
    · have htr : trimRight cs = [] := by
        cases h' : trimRight cs with
        | nil => rfl
        | cons r rs => rw [h'] at hemp; simp at hemp
      rw [if_pos hemp]
      have hz := countRunsAux_of_trimRight_nil htr
      by_cases hc : jsIsWs c = true
      · simp [countRunsAux, hc, hz]
      · simp [countRunsAux, hc, hz]
    · rw [if_neg hemp]
      simp only [countRunsAux, ih]

/-- Left-trimming does not change the run count. -/
theorem countRunsAux_dropWhile (s : JStr) :
    countRunsAux (s.dropWhile jsIsWs) false = countRunsAux s false := by
  induction s with
  | nil => rfl
  | cons c cs ih =>
    by_cases hc : jsIsWs c = true
    · rw [List.dropWhile_cons_of_pos hc, ih]
      simp [countRunsAux, hc]
    · rw [List.dropWhile_cons_of_neg hc]

/-- A non-vanishing right-trim keeps the first character. -/
theorem trimRight_head? (u : JStr) (h : trimRight u ≠ []) :
    (trimRight u).head? = u.head? := by
  cases u with
  | nil => exact absurd rfl h
  | cons c cs =>
    simp only [trimRight] at h ⊢
    by_cases hemp : (trimRight cs).isEmpty = true
    · rw [if_pos hemp] at h ⊢
      by_cases hc : jsIsWs c = true
      · rw [if_pos hc] at h; exact absurd rfl h
      · rw [if_neg hc]; rfl
    · rw [if_neg hemp]
      rfl

/-- The last character of a right-trimmed string is never whitespace. -/
theorem trimRight_getLast {u : JStr} {d : Char}
    (h : (trimRight u).getLast? = some d) : jsIsWs d = false := by
  induction u with
  | nil => simp [trimRight] at h
  | cons c cs ih =>
    simp only [trimRight] at h
    by_cases hemp : (trimRight cs).isEmpty = true
    · rw [if_pos hemp] at h
      by_cases hc : jsIsWs c = true
      · rw [if_pos hc] at h
        simp at h
      · rw [if_neg hc] at h
        simp at h
        rw [← h]
        simpa using hc
    · rw [if_neg hemp] at h
      cases htr : trimRight cs with
      | nil => rw [htr] at hemp; simp at hemp
      | cons r rs =>
        rw [htr] at h
        rw [List.getLast?_cons_cons] at h
        exact ih (by rw [htr]; exact h)

/-- Dropping whitespace from an all-whitespace string leaves nothing. -/
theorem dropWhile_eq_nil_of_all {s : JStr} (hz : ∀ c ∈ s, jsIsWs c = true) :
    s.dropWhile jsIsWs = [] := by
  induction s with
  | nil => rfl
  | cons a as ih =>
    rw [List.dropWhile_cons_of_pos (hz a (by simp))]
    exact ih (fun c hc => hz c (by simp [hc]))

/-- The head of `dropWhile jsIsWs` is never whitespace. -/
theorem dropWhile_head_false {s : JStr} {c : Char} {r : JStr}
    (h : s.dropWhile jsIsWs = c :: r) : jsIsWs c = false := by
  induction s with
  | nil => simp at h
  | cons a as ih =>
    by_cases ha : jsIsWs a = true
    · rw [List.dropWhile_cons_of_pos ha] at h
      exact ih h
    · rw [List.dropWhile_cons_of_neg ha] at h
      cases h
      simpa using ha

/-- The split/run-count invariant, established by one induction for the
two separator-flag values of the splitter together with the relation
between the two flag values of the run counter.  It holds for every
non-empty string without trailing whitespace. -/
theorem splitAux_invariant : ∀ (cs : JStr) (c : Char),
    (∀ d, (c :: cs).getLast? = some d → jsIsWs d = false) →
    ((∀ acc, (jsSplitWsAux (c :: cs) acc true).length = countRunsAux (c :: cs) false) ∧
     (∀ acc, (jsSplitWsAux (c :: cs) acc false).length =
       countRunsAux (c :: cs) false + (if jsIsWs c = true then 1 else 0)) ∧
     (countRunsAux (c :: cs) false =
       countRunsAux (c :: cs) true + (if jsIsWs c = true then 0 else 1))) := by
  intro cs
  induction cs with
  | nil =>
    intro c hT
    have hc : jsIsWs c = false := hT c (by simp)
    refine ⟨fun acc => ?_, fun acc => ?_, ?_⟩
    · simp [jsSplitWsAux, countRunsAux, hc]
    · simp [jsSplitWsAux, countRunsAux, hc]
    · simp [countRunsAux, hc]
  | cons d ds ih =>
    intro c hT
    have hTd : ∀ e, (d :: ds).getLast? = some e → jsIsWs e = false := by
      intro e he
      exact hT e (by rw [List.getLast?_cons_cons]; exact he)
    obtain ⟨ih1, ih2, ih3⟩ := ih d hTd
    by_cases hc : jsIsWs c = true
    · refine ⟨fun acc => ?_, fun acc => ?_, ?_⟩
      · rw [show jsSplitWsAux (c :: d :: ds) acc true =
            jsSplitWsAux (d :: ds) [] true by
          rw [jsSplitWsAux, if_pos hc, if_pos rfl]]
        rw [ih1 []]
        rw [show countRunsAux (c :: d :: ds) false =
            countRunsAux (d :: ds) false by
          rw [countRunsAux, if_pos hc]]
      · rw [show jsSplitWsAux (c :: d :: ds) acc false =
            acc.reverse :: jsSplitWsAux (d :: ds) [] true by
          rw [jsSplitWsAux, if_pos hc, if_neg Bool.false_ne_true]]
        rw [List.length_cons, ih1 []]
        rw [show countRunsAux (c :: d :: ds) false =
            countRunsAux (d :: ds) false by
          rw [countRunsAux, if_pos hc]]
        rw [if_pos hc]
      · rw [show countRunsAux (c :: d :: ds) false =
            countRunsAux (d :: ds) false by
          rw [countRunsAux, if_pos hc]]
        rw [show countRunsAux (c :: d :: ds) true =
            countRunsAux (d :: ds) false by
          rw [countRunsAux, if_pos hc]]
        rw [if_pos hc]
        omega
    · refine ⟨fun acc => ?_, fun acc => ?_, ?_⟩
      · rw [show jsSplitWsAux (c :: d :: ds) acc true =
            jsSplitWsAux (d :: ds) (c :: acc) false by
          rw [jsSplitWsAux, if_neg hc]]
        rw [ih2 (c :: acc)]
        rw [show countRunsAux (c :: d :: ds) false =
            1 + countRunsAux (d :: ds) true by
          rw [countRunsAux, if_neg hc, if_neg Bool.false_ne_true]]
        rw [ih3]
        by_cases hd : jsIsWs d = true
        · rw [if_pos hd, if_pos hd]
          omega
        · rw [if_neg hd, if_neg hd]
          omega
      · rw [show jsSplitWsAux (c :: d :: ds) acc false =
            jsSplitWsAux (d :: ds) (c :: acc) false by
          rw [jsSplitWsAux, if_neg hc]]
        rw [ih2 (c :: acc)]
        rw [show countRunsAux (c :: d :: ds) false =
            1 + countRunsAux (d :: ds) true by
          rw [countRunsAux, if_neg hc, if_neg Bool.false_ne_true]]
        rw [ih3, if_neg hc]
        by_cases hd : jsIsWs d = true
        · rw [if_pos hd, if_pos hd]
          omega
        · rw [if_neg hd, if_neg hd]
          omega
      · rw [show countRunsAux (c :: d :: ds) false =
            1 + countRunsAux (d :: ds) true by
          rw [countRunsAux, if_neg hc, if_neg Bool.false_ne_true]]
        rw [show countRunsAux (c :: d :: ds) true =
            countRunsAux (d :: ds) true by
          rw [countRunsAux, if_neg hc, if_pos rfl]
          omega]
        rw [if_neg hc]
        omega

/-- C9: for every string, the analyzer's `word_count` (trim then split on
whitespace runs) equals the number of maximal non-whitespace runs, and is
0 on empty or all-whitespace strings. -/
theorem c9_word_count (s : JStr) :
    (analyzeString s).word_count = countRuns s ∧
    ((s = [] ∨ ∀ c ∈ s, jsIsWs c = true) → (analyzeString s).word_count = 0) := by
  have hju : jsTrim s = trimRight (s.dropWhile jsIsWs) := rfl
  have etrim : countRunsAux (jsTrim s) false = countRunsAux s false := by
    rw [hju, countRunsAux_trimRight (s.dropWhile jsIsWs) false]
    exact countRunsAux_dropWhile s
  have hmain : wordCountJs s = countRuns s := by
    simp only [wordCountJs]
    cases ht : jsTrim s with
    | nil =>
      simp only [ht, List.isEmpty_nil, if_true]
      rw [countRuns, ← etrim, ht]
      rfl
    | cons c cs =>
      simp only [ht, List.isEmpty_cons, Bool.false_eq_true, if_false]
      have hne : trimRight (s.dropWhile jsIsWs) ≠ [] := by
        rw [← hju, ht]
        simp
      have hh : (s.dropWhile jsIsWs).head? = some c := by
        have hth := trimRight_head? (s.dropWhile jsIsWs) hne
        rw [← hju, ht] at hth
        rw [← hth]
        rfl
      have hhead : jsIsWs c = false := by
        cases hd : s.dropWhile jsIsWs with
        | nil => rw [hd] at hh; simp at hh
        | cons e es =>
          rw [hd] at hh
          simp at hh
          rw [← hh]
          exact dropWhile_head_false hd
      have hT : ∀ d, (c :: cs).getLast? = some d → jsIsWs d = false := by
        intro d hd
        exact trimRight_getLast (u := s.dropWhile jsIsWs) (by rw [← hju, ht]; exact hd)
      obtain ⟨-, inv2, -⟩ := splitAux_invariant cs c hT
      rw [jsSplitWs, inv2 []]
      rw [countRuns, ← etrim, ht]
      simp [hhead]
  refine ⟨hmain, fun hz => ?_⟩
  rcases hz with hz | hz
  · subst hz
    rfl
  · have hdw : s.dropWhile jsIsWs = [] := dropWhile_eq_nil_of_all hz
    have htnil : jsTrim s = [] := by rw [hju, hdw]; rfl
    show wordCountJs s = 0
    simp [wordCountJs, htnil]

/-- C9 witness: the all-whitespace clause at a concrete string. -/
theorem c9_witness :
    (analyzeString ("  ".data)).word_count = countRuns ("  ".data) ∧
    (analyzeString ("  ".data)).word_count = 0 :=
  ⟨(c9_word_count ("  ".data)).1, (c9_word_count ("  ".data)).2 (Or.inr (by decide))⟩
